import Mathlib

/-!
Shallow embedding of the quotation-builder application
(repository: Cotizaci-n-2025, files src/src/App.js — the "basic" variant —
and src/unnamed/part_000 — the "admin" variant).

A JavaScript number is embedded as `JsVal`: a finite value (an exact
rational — finite values are kept exact rather than rounded to binary64),
`+Infinity`, `-Infinity`, or `NaN`.  A raw user-editable numeric field
(`hours`, `hourlyCost`, `exchangeRate`, `igvRate`, `defaultHourlyCost`) is
abstracted by what `Number(·)` coercion does to it: the class `num q` holds
any value coercing to the finite number `q` (signed zeros are identified
with 0), and `posInf`/`negInf`/`nan` hold the values coercing to
`+Infinity`/`-Infinity`/`NaN` — e.g. the input string "1e999" is `posInf`.
The arithmetic the source performs on these numbers (`*`, `+`, `/`) is
embedded by `jsMul`/`jsAdd`/`jsDiv` with the IEEE special-value rules.
-/

namespace Cotizacion

/-- A JavaScript number (or a raw value abstracted by its `Number(·)`
coercion): `num q` is a finite number (any value coercing to the finite
value `q`, signed zeros identified with 0); `posInf`, `negInf` and `nan`
are `+Infinity`, `-Infinity` and `NaN` (or values coercing to them). -/
inductive JsVal where
  | num (q : ℚ)
  | posInf
  | negInf
  | nan
deriving DecidableEq

/-- `Number.isFinite(x)`. -/
def JsVal.isFinite : JsVal → Bool
  | .num _ => true
  | .posInf => false
  | .negInf => false
  | .nan => false

/-- JavaScript multiplication with its IEEE special-value rules
(finite values multiplied exactly; `±Infinity × 0 = NaN`,
`±Infinity × nonzero` keeps the sign product, `NaN` is absorbing). -/
def jsMul : JsVal → JsVal → JsVal
  | .num a, .num b => .num (a * b)
  | .num a, .posInf => if a = 0 then .nan else if 0 < a then .posInf else .negInf
  | .num a, .negInf => if a = 0 then .nan else if 0 < a then .negInf else .posInf
  | .num _, .nan => .nan
  | .posInf, .num b => if b = 0 then .nan else if 0 < b then .posInf else .negInf
  | .posInf, .posInf => .posInf
  | .posInf, .negInf => .negInf
  | .posInf, .nan => .nan
  | .negInf, .num b => if b = 0 then .nan else if 0 < b then .negInf else .posInf
  | .negInf, .posInf => .negInf
  | .negInf, .negInf => .posInf
  | .negInf, .nan => .nan
  | .nan, _ => .nan

/-- JavaScript addition with its IEEE special-value rules
(`+Infinity + -Infinity = NaN`, `NaN` is absorbing). -/
def jsAdd : JsVal → JsVal → JsVal
  | .num a, .num b => .num (a + b)
  | .num _, .posInf => .posInf
  | .num _, .negInf => .negInf
  | .num _, .nan => .nan
  | .posInf, .num _ => .posInf
  | .posInf, .posInf => .posInf
  | .posInf, .negInf => .nan
  | .posInf, .nan => .nan
  | .negInf, .num _ => .negInf
  | .negInf, .posInf => .nan
  | .negInf, .negInf => .negInf
  | .negInf, .nan => .nan
  | .nan, _ => .nan

/-- JavaScript division with its IEEE special-value rules (finite by
finite nonzero exactly; `finite / ±Infinity = 0`; a modeled zero divisor
is `+0`, so `a / 0` is `±Infinity` by the sign of `a` and `0 / 0 = NaN`;
`±Infinity / ±Infinity = NaN`; `NaN` is absorbing). -/
def jsDiv : JsVal → JsVal → JsVal
  | .num a, .num b =>
      if b = 0 then (if a = 0 then .nan else if 0 < a then .posInf else .negInf)
      else .num (a / b)
  | .num _, .posInf => .num 0
  | .num _, .negInf => .num 0
  | .num _, .nan => .nan
  | .posInf, .num b => if 0 ≤ b then .posInf else .negInf
  | .posInf, .posInf => .nan
  | .posInf, .negInf => .nan
  | .posInf, .nan => .nan
  | .negInf, .num b => if 0 ≤ b then .negInf else .posInf
  | .negInf, .posInf => .nan
  | .negInf, .negInf => .nan
  | .negInf, .nan => .nan
  | .nan, _ => .nan

/-- `Number(x) || 0` from the source: `NaN` is falsy and becomes 0, but
`±Infinity` is truthy and passes through; finite values pass through
(a finite 0 is falsy, and `0 || 0 = 0`). -/
def toNum0 : JsVal → JsVal
  | .num q => .num q
  | .posInf => .posInf
  | .negInf => .negInf
  | .nan => .num 0

/-- `Number(x) || 1` from the admin variant (`const rate = Number(settings.exchangeRate) || 1`):
0 and `NaN` (both falsy) become 1, but `±Infinity` is truthy and passes
through; other finite values pass through. -/
def toNum1 : JsVal → JsVal
  | .num q => if q = 0 then .num 1 else .num q
  | .posInf => .posInf
  | .negInf => .negInf
  | .nan => .num 1

/-- The two currencies of the app (`currency` state is always "PEN" or "USD"). -/
inductive Currency where
  | PEN
  | USD
deriving DecidableEq

/-- `currency === "PEN" ? "USD" : "PEN"`. -/
def otherOf : Currency → Currency
  | .PEN => .USD
  | .USD => .PEN

/-- A line-item row as stored in the `rows` state (both variants): the numeric
fields hold raw input values, coerced only inside `computed`. -/
structure RawRow where
  id : String
  serviceType : String
  detail : String
  hours : JsVal
  hourlyCost : JsVal
deriving DecidableEq

/-- A computed line item (element of `computed.items`): the spread `{ ...r,
hours, hourlyCost, subtotal }` with the numeric fields coerced. -/
structure Item where
  id : String
  serviceType : String
  detail : String
  hours : JsVal
  hourlyCost : JsVal
  subtotal : JsVal
deriving DecidableEq

/-- One step of `rows.map` inside `computed` (identical in both variants):
`hours = Number(r.hours) || 0`, `hourlyCost = Number(r.hourlyCost) || 0`,
`subtotal = hours * hourlyCost`. -/
def computeItem (r : RawRow) : Item :=
  let hours := toNum0 r.hours
  let hourlyCost := toNum0 r.hourlyCost
  { id := r.id, serviceType := r.serviceType, detail := r.detail,
    hours := hours, hourlyCost := hourlyCost,
    subtotal := jsMul hours hourlyCost }

/-- The record returned by the `computed` useMemo (both variants). -/
structure Totals where
  items : List Item
  subtotal : JsVal
  igv : JsVal
  total : JsVal
  otherCurrency : Currency
  subtotalOther : JsVal
  igvOther : JsVal
  totalOther : JsVal
deriving DecidableEq

/-- The conversion closure inside the admin variant's `computed`:
`if (!Number.isFinite(amount)) return 0;
if (currency === "PEN") return amount / rate; return amount * rate;`. -/
def convertAdmin (currency : Currency) (rate amount : JsVal) : JsVal :=
  if amount.isFinite then
    (if currency = Currency.PEN then jsDiv amount rate else jsMul amount rate)
  else .num 0

/-- `EXCHANGE_RATE = 3.5` of the basic variant. -/
def EXCHANGE_RATE : ℚ := 7 / 2

/-- `IGV_RATE = 0.18` of the basic variant. -/
def IGV_RATE : ℚ := 9 / 50

/-- Top-level `convert(amount, fromCurrency)` of the basic variant:
non-finite amounts become 0 (the `Number.isFinite` guard), then divide by
the fixed rate when converting from PEN, multiply otherwise. -/
def convert (amount : JsVal) (fromCurrency : Currency) : JsVal :=
  if amount.isFinite then
    (if fromCurrency = Currency.PEN then jsDiv amount (.num EXCHANGE_RATE)
     else jsMul amount (.num EXCHANGE_RATE))
  else .num 0

/-- The `computed` useMemo of the admin variant (part_000, lines 199–230):
per-item coercion, aggregation with `reduce`, IGV from the coerced
`settings.igvRate`, and informational conversion with
`rate = Number(settings.exchangeRate) || 1`. -/
def computedAdmin (rows : List RawRow) (currency : Currency)
    (igvRate exchangeRate : JsVal) : Totals :=
  let items := rows.map computeItem
  let subtotal := items.foldl (fun acc it => jsAdd acc it.subtotal) (.num 0)
  let igv := jsMul subtotal (toNum0 igvRate)
  let total := jsAdd subtotal igv
  let rate := toNum1 exchangeRate
  { items := items, subtotal := subtotal, igv := igv, total := total,
    otherCurrency := otherOf currency,
    subtotalOther := convertAdmin currency rate subtotal,
    igvOther := convertAdmin currency rate igv,
    totalOther := convertAdmin currency rate total }

/-- The `computed` useMemo of the basic variant (App.js, lines 110–138):
same per-item computation, fixed `IGV_RATE`, conversion through the
top-level `convert` with the fixed `EXCHANGE_RATE`. -/
def computedBasic (rows : List RawRow) (currency : Currency) : Totals :=
  let items := rows.map computeItem
  let subtotal := items.foldl (fun acc it => jsAdd acc it.subtotal) (.num 0)
  let igv := jsMul subtotal (.num IGV_RATE)
  let total := jsAdd subtotal igv
  { items := items, subtotal := subtotal, igv := igv, total := total,
    otherCurrency := otherOf currency,
    subtotalOther := convert subtotal currency,
    igvOther := convert igv currency,
    totalOther := convert total currency }

/-! ### Service catalog (admin variant) -/

/-- A catalog entry of the admin variant (`DEFAULT_SERVICES` shape).
`defaultHourlyCost` stays a raw `JsVal`: every consumer re-coerces it with
`Number(·)`, which is the identity modulo the `JsVal` abstraction. -/
structure Service where
  id : String
  code : String
  label : String
  suggestion : String
  defaultHourlyCost : JsVal
deriving DecidableEq

/-- `DEFAULT_SERVICES` of the admin variant. -/
def DEFAULT_SERVICES : List Service :=
  [ { id := "srv_creacion_web", code := "creacion_web",
      label := "Creación de página web",
      suggestion := "Incluye estructura, secciones, responsive, performance básico, formularios y puesta en producción.",
      defaultHourlyCost := .num 60 },
    { id := "srv_mantenimiento_web", code := "mantenimiento_web",
      label := "Mantenimiento de página web",
      suggestion := "Actualizaciones, backups, monitoreo, correcciones, seguridad básica, soporte mensual.",
      defaultHourlyCost := .num 50 },
    { id := "srv_diseno_figma", code := "diseno_figma",
      label := "Diseño UI en Figma",
      suggestion := "Wireframes + UI final, componentes, estilos, prototipo navegable y handoff a desarrollo.",
      defaultHourlyCost := .num 55 } ]

/-- JavaScript whitespace (`\s`, and what `String.prototype.trim` strips):
the ASCII whitespace characters plus the common Unicode space characters. -/
def jsWhitespace (c : Char) : Bool :=
  c.toNat = 0x20 ∨ c.toNat = 0x09 ∨ c.toNat = 0x0a ∨ c.toNat = 0x0b ∨
  c.toNat = 0x0c ∨ c.toNat = 0x0d ∨ c.toNat = 0xa0 ∨ c.toNat = 0x2028 ∨
  c.toNat = 0x2029 ∨ c.toNat = 0xfeff

/-- `s.trim()`: drop leading and trailing JavaScript whitespace. -/
def jsTrim (s : String) : String :=
  ⟨((s.data.dropWhile jsWhitespace).reverse.dropWhile jsWhitespace).reverse⟩

/-- JavaScript `\w`: `[A-Za-z0-9_]`. -/
def isWordChar (c : Char) : Bool :=
  ('a' ≤ c ∧ c ≤ 'z') ∨ ('A' ≤ c ∧ c ≤ 'Z') ∨ ('0' ≤ c ∧ c ≤ '9') ∨ c = '_'

/-- `.replace(/\s+/g, "_")`: each maximal whitespace run becomes one '_'.
The flag records whether the previous character was whitespace. -/
def collapseWs : Bool → List Char → List Char
  | _, [] => []
  | prevWs, c :: rest =>
    if jsWhitespace c then
      (if prevWs then [] else ['_']) ++ collapseWs true rest
    else c :: collapseWs false rest

/-- `.replace(/_+/g, "_")`: each maximal underscore run becomes one '_'. -/
def collapseUs : Bool → List Char → List Char
  | _, [] => []
  | prevU, c :: rest =>
    if c = '_' then
      (if prevU then [] else ['_']) ++ collapseUs true rest
    else c :: collapseUs false rest

/-- `slugifyCode` of the admin variant: lowercase, trim, strip characters
outside `[\w\s-]`, collapse whitespace runs to '_', collapse '_' runs,
truncate to 40 characters. -/
def slugifyCode (s : String) : String :=
  let base := (jsTrim ⟨s.data.map Char.toLower⟩).data
  let kept := base.filter (fun c => isWordChar c || jsWhitespace c || c = '-')
  ⟨(collapseUs false (collapseWs false kept)).take 40⟩

/-- The `newService` admin scratch state. -/
structure NewService where
  label : String
  code : String
  suggestion : String
  defaultHourlyCost : JsVal
deriving DecidableEq

/-- The reset value `{ label: "", code: "", suggestion: "", defaultHourlyCost: 0 }`. -/
def emptyNewService : NewService :=
  { label := "", code := "", suggestion := "", defaultHourlyCost := .num 0 }

/-- Outcome of `addServiceFromAdmin`: the three `alert(...)` validation
branches, or success. -/
inductive AddResult where
  | emptyLabel
  | emptyCode
  | duplicateCode
  | added
deriving DecidableEq

/-- Whether an `AddResult` corresponds to an `alert(...)` call (a user-facing
validation error) in the source. -/
def AddResult.isValidationError : AddResult → Bool
  | .added => false
  | _ => true

/-- `addServiceFromAdmin` (part_000, lines 276–308).  `freshId` stands for the
`safeId()` call.  Returns the new catalog, the new scratch state and the
outcome; every `alert` branch returns before any `set...` call. -/
def addServiceFromAdmin (services : List Service) (newService : NewService)
    (freshId : String) : List Service × NewService × AddResult :=
  let label := jsTrim newService.label
  let code := jsTrim (if newService.code = "" then slugifyCode label else newService.code)
  if label = "" then (services, newService, .emptyLabel)
  else if code = "" then (services, newService, .emptyCode)
  else if services.any (fun s => s.code = code) then (services, newService, .duplicateCode)
  else
    (services ++ [{ id := freshId, code := code, label := label,
                    suggestion := newService.suggestion,
                    defaultHourlyCost := toNum0 newService.defaultHourlyCost }],
     emptyNewService, .added)

/-- The patches the admin UI passes to `updateService`: only `label`,
`suggestion` and `defaultHourlyCost` fields (never `code` or `id`). -/
structure ServicePatch where
  label : Option String
  suggestion : Option String
  defaultHourlyCost : Option JsVal
deriving DecidableEq

/-- `{ ...s, ...patch }` for a `ServicePatch`. -/
def applyPatch (s : Service) (p : ServicePatch) : Service :=
  { s with label := p.label.getD s.label,
           suggestion := p.suggestion.getD s.suggestion,
           defaultHourlyCost := p.defaultHourlyCost.getD s.defaultHourlyCost }

/-- `updateService(id, patch)` (part_000, lines 310–314). -/
def updateService (services : List Service) (id : String) (p : ServicePatch) :
    List Service :=
  services.map (fun s => if s.id = id then applyPatch s p else s)

/-- Outcome of `deleteService`: `notFound` is the bare `return` (no alert),
`minCardinalityError` is the `alert("Debe existir al menos 1 servicio.")`
branch, `cancelled` is a refused `window.confirm`. -/
inductive DeleteResult where
  | notFound
  | minCardinalityError
  | cancelled
  | deleted
deriving DecidableEq

/-- Whether a `DeleteResult` corresponds to an `alert(...)` call (a
user-facing error report) in the source. -/
def DeleteResult.reportsError : DeleteResult → Bool
  | .minCardinalityError => true
  | _ => false

/-- `deleteService(id)` (part_000, lines 316–328).  `confirmed` is the answer
`window.confirm` returns. -/
def deleteService (services : List Service) (id : String) (confirmed : Bool) :
    List Service × DeleteResult :=
  match services.find? (fun s => s.id = id) with
  | none => (services, .notFound)
  | some _ =>
    if services.length ≤ 1 then (services, .minCardinalityError)
    else if ¬ confirmed then (services, .cancelled)
    else (services.filter (fun s => s.id ≠ id), .deleted)

/-- The `useEffect([services])` reconciliation pass (part_000, lines 185–196):
when the catalog is non-empty, every row whose `serviceType` is not among the
catalog codes is redirected to the first entry's code. -/
def reconcileRows (services : List Service) (rows : List RawRow) : List RawRow :=
  match services with
  | [] => rows
  | s0 :: _ =>
    let codes := services.map Service.code
    rows.map (fun r =>
      if r.serviceType ∈ codes then r else { r with serviceType := s0.code })

/-- `getServiceByCode` of the admin variant. -/
def getServiceByCode (services : List Service) (code : String) : Option Service :=
  services.find? (fun s => s.code = code)

/-- `handleServiceChange(rowId, serviceType)` (part_000, lines 249–266):
the matching rows get the new `serviceType`, keep `detail` when its trim is
non-empty (truthy) and otherwise take the service's suggestion, and get
`hourlyCost = Number(svc?.defaultHourlyCost ?? 0)`. -/
def handleServiceChange (services : List Service) (rows : List RawRow)
    (rowId : String) (serviceType : String) : List RawRow :=
  let svc := getServiceByCode services serviceType
  let suggestion := (svc.map Service.suggestion).getD ""
  let defaultHourlyCost : JsVal := (svc.map Service.defaultHourlyCost).getD (.num 0)
  rows.map (fun r =>
    if r.id = rowId then
      { r with serviceType := serviceType,
               detail := if jsTrim r.detail ≠ "" then r.detail else suggestion,
               hourlyCost := defaultHourlyCost }
    else r)

/-! ### Durable-storage load paths (admin variant) -/

/-- An entry of the parsed `savedServices` array.  JSON cannot carry
`undefined`, so an absent string field is modelled by `""` — exactly the
values the source's truthiness checks (`s.code && s.label`, `s.id ||
safeId()`, `s.suggestion || ""`) treat as absent. -/
structure StoredService where
  id : String
  code : String
  label : String
  suggestion : String
  defaultHourlyCost : JsVal
deriving DecidableEq

/-- The per-entry cleaning step of the services load:
`{ id: s.id || safeId(), code: String(s.code), label: String(s.label),
suggestion: String(s.suggestion || ""), defaultHourlyCost:
Number(s.defaultHourlyCost || 0) }`.  `fid` stands for the `safeId()` call.
`Number(x || 0)` is the identity on the `JsVal` abstraction: falsy raw
values already coerce to 0, truthy ones (including `±Infinity`-coercing and
`NaN`-coercing parsed values, JSON having no `NaN` literal) keep their
coercion class. -/
def cleanService (s : StoredService) (fid : String) : Service :=
  { id := if s.id = "" then fid else s.id,
    code := s.code, label := s.label, suggestion := s.suggestion,
    defaultHourlyCost := s.defaultHourlyCost }

/-- The services branch of the mount `useEffect` (part_000, lines 156–173).
`stored = none` models a missing key, unparsable JSON, a non-array value or
an empty array (all of which leave `current` in place); `fresh i` supplies
the `safeId()` for the i-th kept entry. -/
def loadServices (current : List Service) (stored : Option (List StoredService))
    (fresh : Nat → String) : List Service :=
  match stored with
  | none => current
  | some l =>
    let kept := l.filter (fun s => s.code ≠ "" ∧ s.label ≠ "")
    let cleaned := kept.enum.map (fun p => cleanService p.2 (fresh p.1))
    if cleaned.length > 0 then cleaned else current

/-- The `settings` state (admin variant). -/
structure Settings where
  exchangeRate : JsVal
  igvRate : JsVal
  companyName : String
  companyRuc : String
  companyEmail : String
  companyPhone : String
deriving DecidableEq

/-- `APP_OWNER_NAME`. -/
def APP_OWNER_NAME : String := "Alma Industria Creativa E.I.R.L. | Alma Quinta"

/-- `DEFAULT_SETTINGS` (part_000, lines 17–24). -/
def DEFAULT_SETTINGS : Settings :=
  { exchangeRate := .num (7 / 2), igvRate := .num (9 / 50),
    companyName := APP_OWNER_NAME, companyRuc := "",
    companyEmail := "", companyPhone := "" }

/-- A parsed stored-settings object, field by field: `none` means the key is
absent from the stored object. -/
structure StoredSettings where
  exchangeRate : Option JsVal
  igvRate : Option JsVal
  companyName : Option String
  companyRuc : Option String
  companyEmail : Option String
  companyPhone : Option String
deriving DecidableEq

/-- The settings branch of the mount `useEffect` (part_000, lines 146–154):
`stored = none` models a missing key, unparsable JSON, `null`, or a
non-object value (the `savedSettings && typeof savedSettings === "object"`
guard); otherwise the shallow merge `{ ...prev, ...savedSettings }`. -/
def loadSettings (prev : Settings) (stored : Option StoredSettings) : Settings :=
  match stored with
  | none => prev
  | some p =>
    { exchangeRate := p.exchangeRate.getD prev.exchangeRate,
      igvRate := p.igvRate.getD prev.igvRate,
      companyName := p.companyName.getD prev.companyName,
      companyRuc := p.companyRuc.getD prev.companyRuc,
      companyEmail := p.companyEmail.getD prev.companyEmail,
      companyPhone := p.companyPhone.getD prev.companyPhone }

/-! ### PDF row projections -/

/-- An entry of the basic variant's `SERVICE_CATALOG`. -/
structure CatalogEntry where
  value : String
  label : String
  suggestion : String
deriving DecidableEq

/-- `SERVICE_CATALOG` of the basic variant (App.js, lines 10–29). -/
def SERVICE_CATALOG : List CatalogEntry :=
  [ { value := "creacion_web", label := "Creación de página web",
      suggestion := "Incluye estructura, secciones, responsive, performance básico, formularios y puesta en producción." },
    { value := "mantenimiento_web", label := "Mantenimiento de página web",
      suggestion := "Actualizaciones, backups, monitoreo, correcciones, seguridad básica, soporte mensual." },
    { value := "diseno_figma", label := "Diseño UI en Figma",
      suggestion := "Wireframes + UI final, componentes, estilos, prototipo navegable y handoff a desarrollo." } ]

/-- `getServiceLabel(value)` of the basic variant:
`SERVICE_CATALOG.find(...)?.label || value`. -/
def getServiceLabel (value : String) : String :=
  match SERVICE_CATALOG.find? (fun s => s.value = value) with
  | some s => if s.label = "" then value else s.label
  | none => value

/-- One row of the basic variant's PDF body (App.js, lines 205–210):
`[getServiceLabel(it.serviceType), it.detail || "", String(it.hours ?? 0),
moneyFmt(it.subtotal, currency)]`.  The two numeric components carry the
values handed to the external formatters `String(·)` and `moneyFmt`
(`it.detail || ""` is the identity on strings modulo `""`; `it.hours ?? 0`
is `it.hours`, which is never nullish on a computed item). -/
def pdfRowBasic (it : Item) : String × String × JsVal × JsVal :=
  (getServiceLabel it.serviceType, it.detail, it.hours, it.subtotal)

/-- `computed.items.map(...)` building the basic variant's PDF table body. -/
def pdfBodyBasic (items : List Item) : List (String × String × JsVal × JsVal) :=
  items.map pdfRowBasic

/-- The label lookup of the admin variant's PDF body:
`getServiceByCode(it.serviceType)?.label || it.serviceType`. -/
def getLabelAdmin (services : List Service) (code : String) : String :=
  match getServiceByCode services code with
  | some s => if s.label = "" then code else s.label
  | none => code

/-- One row of the admin variant's PDF body (part_000, lines 396–399):
`[label, it.detail || "", moneyFmt(it.subtotal, currency)]` — no hours
column, no hourly-cost column. -/
def pdfRowAdmin (services : List Service) (it : Item) : String × String × JsVal :=
  (getLabelAdmin services it.serviceType, it.detail, it.subtotal)

/-- `computed.items.map(...)` building the admin variant's PDF table body. -/
def pdfBodyAdmin (services : List Service) (items : List Item) :
    List (String × String × JsVal) :=
  items.map (pdfRowAdmin services)

/-! ### Helper lemmas -/

/-! ### Claims -/

/-- C1 counterexample: `Number(x) || 0` does **not** turn `+Infinity` into 0
(Infinity is truthy), so a line item whose hours input coerces to Infinity
(e.g. the string "1e999") and whose hourly cost is 60 gets
`subtotal = Infinity`, not 0 — the claim's "non-finite ... becoming 0" is
false of the code. -/
theorem computed_infinity_hours_cex :
    (computedAdmin
        [{ id := "r1", serviceType := "creacion_web", detail := "",
           hours := .posInf, hourlyCost := .num 60 }]
        Currency.PEN (.num (9 / 50)) (.num (7 / 2))).items.map Item.subtotal
      = [JsVal.posInf]
    ∧ toNum0 .posInf = .posInf
    ∧ JsVal.posInf ≠ JsVal.num 0 := by
  refine ⟨?_, rfl, by simp⟩
  norm_num [computedAdmin, computeItem, toNum0, jsMul]

/-- C1 (amended): in both variants, `computed` gives each item
`subtotal = (Number(hours) || 0) ×ⱼₛ (Number(hourlyCost) || 0)` under
JavaScript arithmetic, where the coercion turns `NaN`-coercing
(non-numeric) input into 0 but lets `±Infinity` pass through; the aggregate
subtotal is the JS-sum of the per-item subtotals; `tax = subtotal ×ⱼₛ
taxRate` (after the same coercion of the rate; `IGV_RATE` = 0.18 in the
basic variant); `total = subtotal +ⱼₛ tax`.  The embedding is a total
function, matching the source's absence of any throwing path. -/
theorem computed_pricing_correct (rows : List RawRow) (currency : Currency)
    (igvRate exchangeRate : JsVal) :
    let c := computedAdmin rows currency igvRate exchangeRate
    let b := computedBasic rows currency
    (c.items.map Item.subtotal
        = rows.map (fun r => jsMul (toNum0 r.hours) (toNum0 r.hourlyCost)))
    ∧ (∀ it ∈ c.items, it.subtotal = jsMul it.hours it.hourlyCost)
    ∧ c.subtotal = (c.items.map Item.subtotal).foldl jsAdd (.num 0)
    ∧ c.igv = jsMul c.subtotal (toNum0 igvRate)
    ∧ c.total = jsAdd c.subtotal c.igv
    ∧ (b.items.map Item.subtotal
        = rows.map (fun r => jsMul (toNum0 r.hours) (toNum0 r.hourlyCost)))
    ∧ (∀ it ∈ b.items, it.subtotal = jsMul it.hours it.hourlyCost)
    ∧ b.subtotal = (b.items.map Item.subtotal).foldl jsAdd (.num 0)
    ∧ b.igv = jsMul b.subtotal (.num IGV_RATE)
    ∧ b.total = jsAdd b.subtotal b.igv
    ∧ (∀ q : ℚ, toNum0 (.num q) = .num q)
    ∧ toNum0 .nan = .num 0
    ∧ toNum0 .posInf = .posInf
    ∧ toNum0 .negInf = .negInf := by
  refine ⟨?_, ?_, ?_, ?_, ?_, ?_, ?_, ?_, ?_, ?_, fun q => rfl, rfl, rfl, rfl⟩
  · simp [computedAdmin, computeItem]
  · intro it hit
    simp only [computedAdmin, List.mem_map] at hit
    obtain ⟨r, _, rfl⟩ := hit
    simp [computeItem]
  · simp [computedAdmin, List.foldl_map, Function.comp]
  · simp [computedAdmin]
  · simp [computedAdmin]
  · simp [computedBasic, computeItem]
  · intro it hit
    simp only [computedBasic, List.mem_map] at hit
    obtain ⟨r, _, rfl⟩ := hit
    simp [computeItem]
  · simp [computedBasic, List.foldl_map, Function.comp]
  · simp [computedBasic]
  · simp [computedBasic]

/-- C3: converting an amount from the primary currency to the other one and
back with the same positive exchange rate returns the original amount, for
both choices of primary currency, exactly over exact arithmetic — for the
admin variant's parametric conversion (including its `Number(·) || 1`
coercion of the rate) and for the basic variant's fixed-rate `convert`. -/
theorem currency_roundtrip (a q : ℚ) (hq : 0 < q) :
    (∀ cur : Currency,
        convertAdmin (otherOf cur) (toNum1 (.num q))
          (convertAdmin cur (toNum1 (.num q)) (.num a)) = .num a)
    ∧ (∀ cur : Currency,
        convert (convert (.num a) cur) (otherOf cur) = .num a) := by
  have hq0 : q ≠ 0 := ne_of_gt hq
  have hrate : toNum1 (.num q) = .num q := by simp [toNum1, hq0]
  constructor
  · intro cur
    rw [hrate]
    cases cur <;>
      simp [convertAdmin, otherOf, JsVal.isFinite, jsDiv, jsMul, hq0,
        div_mul_cancel₀, mul_div_cancel_right₀]
  · intro cur
    have hE : EXCHANGE_RATE ≠ 0 := by norm_num [EXCHANGE_RATE]
    cases cur <;>
      simp [convert, otherOf, JsVal.isFinite, jsDiv, jsMul, hE,
        div_mul_cancel₀, mul_div_cancel_right₀]

/-- Witness for `currency_roundtrip` at `a = 5`, `q = 2`. -/
theorem currency_roundtrip_witness :
    (0 : ℚ) < 2
    ∧ ((∀ cur : Currency,
          convertAdmin (otherOf cur) (toNum1 (.num 2))
            (convertAdmin cur (toNum1 (.num 2)) (.num 5)) = .num 5)
      ∧ (∀ cur : Currency,
          convert (convert (.num 5) cur) (otherOf cur) = .num 5)) :=
  ⟨by norm_num, currency_roundtrip 5 2 (by norm_num)⟩

lemma convertAdmin_rate_one (cur : Currency) (x : JsVal) :
    convertAdmin cur (.num 1) x = if x.isFinite then x else .num 0 := by
  cases x <;> cases cur <;> simp [convertAdmin, JsVal.isFinite, jsDiv, jsMul]

/-- C10 counterexample: the claim's equality of the converted figures with
the primary ones is not universal even for a rate coercing to 0 — with an
Infinity-coercing hours input the primary subtotal is `Infinity`, and the
conversion's `Number.isFinite` guard exports 0 for it, regardless of the
substituted rate 1. -/
theorem exchangeRate_fallback_cex :
    (computedAdmin
        [{ id := "r1", serviceType := "creacion_web", detail := "",
           hours := .posInf, hourlyCost := .num 60 }]
        Currency.PEN (.num (9 / 50)) (.num 0)).subtotal = JsVal.posInf
    ∧ (computedAdmin
        [{ id := "r1", serviceType := "creacion_web", detail := "",
           hours := .posInf, hourlyCost := .num 60 }]
        Currency.PEN (.num (9 / 50)) (.num 0)).subtotalOther = JsVal.num 0
    ∧ (computedAdmin
        [{ id := "r1", serviceType := "creacion_web", detail := "",
           hours := .posInf, hourlyCost := .num 60 }]
        Currency.PEN (.num (9 / 50)) (.num 0)).subtotalOther
      ≠ (computedAdmin
        [{ id := "r1", serviceType := "creacion_web", detail := "",
           hours := .posInf, hourlyCost := .num 60 }]
        Currency.PEN (.num (9 / 50)) (.num 0)).subtotal := by
  have hsub : (computedAdmin
      [{ id := "r1", serviceType := "creacion_web", detail := "",
         hours := .posInf, hourlyCost := .num 60 }]
      Currency.PEN (.num (9 / 50)) (.num 0)).subtotal = JsVal.posInf := by
    norm_num [computedAdmin, computeItem, toNum0, jsMul, jsAdd]
  have hother : (computedAdmin
      [{ id := "r1", serviceType := "creacion_web", detail := "",
         hours := .posInf, hourlyCost := .num 60 }]
      Currency.PEN (.num (9 / 50)) (.num 0)).subtotalOther = JsVal.num 0 := by
    norm_num [computedAdmin, computeItem, toNum0, toNum1, jsMul, jsAdd,
      convertAdmin, JsVal.isFinite]
  refine ⟨hsub, hother, ?_⟩
  rw [hsub, hother]
  simp

/-- C10 (amended): in the admin variant's `computed`, an `exchangeRate` that
coerces to 0 or NaN is silently replaced by a rate of 1, so each converted
figure equals the corresponding primary-currency figure whenever that figure
is finite; a non-finite primary figure (reachable only through
Infinity-coercing inputs) is exported as 0 by the conversion's
`Number.isFinite` guard, regardless of the substituted rate; no error is
signalled and no positivity check is made. -/
theorem exchangeRate_zero_falls_back_to_one (rows : List RawRow)
    (cur : Currency) (igvRate : JsVal) (v : JsVal)
    (h : v = .num 0 ∨ v = .nan) :
    let c := computedAdmin rows cur igvRate v
    toNum1 v = .num 1
    ∧ (c.subtotal.isFinite = true → c.subtotalOther = c.subtotal)
    ∧ (c.igv.isFinite = true → c.igvOther = c.igv)
    ∧ (c.total.isFinite = true → c.totalOther = c.total)
    ∧ (c.subtotal.isFinite = false → c.subtotalOther = .num 0)
    ∧ (c.igv.isFinite = false → c.igvOther = .num 0)
    ∧ (c.total.isFinite = false → c.totalOther = .num 0) := by
  have h1 : toNum1 v = .num 1 := by rcases h with h | h <;> simp [h, toNum1]
  have hconv : ∀ x : JsVal,
      convertAdmin cur (toNum1 v) x = if x.isFinite then x else .num 0 := by
    intro x
    rw [h1]
    exact convertAdmin_rate_one cur x
  have hso : (computedAdmin rows cur igvRate v).subtotalOther
      = convertAdmin cur (toNum1 v) (computedAdmin rows cur igvRate v).subtotal := rfl
  have hio : (computedAdmin rows cur igvRate v).igvOther
      = convertAdmin cur (toNum1 v) (computedAdmin rows cur igvRate v).igv := rfl
  have hto : (computedAdmin rows cur igvRate v).totalOther
      = convertAdmin cur (toNum1 v) (computedAdmin rows cur igvRate v).total := rfl
  refine ⟨h1, ?_, ?_, ?_, ?_, ?_, ?_⟩
  · intro hf
    rw [hso, hconv, if_pos hf]
  · intro hf
    rw [hio, hconv, if_pos hf]
  · intro hf
    rw [hto, hconv, if_pos hf]
  · intro hf
    rw [hso, hconv, if_neg (by simp [hf])]
  · intro hf
    rw [hio, hconv, if_neg (by simp [hf])]
  · intro hf
    rw [hto, hconv, if_neg (by simp [hf])]

/-- Witness for `exchangeRate_zero_falls_back_to_one`: a NaN-coercing
exchange rate with one ordinary finite line item. -/
theorem exchangeRate_zero_falls_back_to_one_witness :
    (JsVal.nan = JsVal.num 0 ∨ JsVal.nan = JsVal.nan)
    ∧ toNum1 .nan = .num 1
    ∧ (computedAdmin
        [{ id := "r1", serviceType := "creacion_web", detail := "",
           hours := .num 20, hourlyCost := .num 60 }]
        Currency.PEN (.num (9 / 50)) .nan).subtotal.isFinite = true
    ∧ (computedAdmin
        [{ id := "r1", serviceType := "creacion_web", detail := "",
           hours := .num 20, hourlyCost := .num 60 }]
        Currency.PEN (.num (9 / 50)) .nan).subtotalOther
      = (computedAdmin
        [{ id := "r1", serviceType := "creacion_web", detail := "",
           hours := .num 20, hourlyCost := .num 60 }]
        Currency.PEN (.num (9 / 50)) .nan).subtotal :=
  ⟨Or.inr rfl,
   (exchangeRate_zero_falls_back_to_one
     [{ id := "r1", serviceType := "creacion_web", detail := "",
        hours := .num 20, hourlyCost := .num 60 }]
     Currency.PEN (.num (9 / 50)) .nan (Or.inr rfl)).1,
   rfl,
   (exchangeRate_zero_falls_back_to_one
     [{ id := "r1", serviceType := "creacion_web", detail := "",
        hours := .num 20, hourlyCost := .num 60 }]
     Currency.PEN (.num (9 / 50)) .nan (Or.inr rfl)).2.1 rfl⟩

/-- C4: whenever the catalog changes, the reconciliation effect maps rows
one-to-one; a row whose `serviceType` still matches some catalog code is kept
identical, and a row whose `serviceType` no longer matches any code is
reassigned to the first catalog entry's code (all other fields kept). -/
theorem rows_reconciliation (services : List Service) (rows : List RawRow)
    (s0 : Service) (rest : List Service) (h : services = s0 :: rest) :
    (reconcileRows services rows).length = rows.length
    ∧ ∀ (i : Nat) (r : RawRow), rows[i]? = some r →
        (r.serviceType ∈ services.map Service.code →
            (reconcileRows services rows)[i]? = some r)
        ∧ (r.serviceType ∉ services.map Service.code →
            (reconcileRows services rows)[i]? =
              some { r with serviceType := s0.code }) := by
  subst h
  have hunfold : reconcileRows (s0 :: rest) rows
      = rows.map (fun r =>
          if r.serviceType ∈ (s0 :: rest).map Service.code then r
          else { r with serviceType := s0.code }) := rfl
  constructor
  · rw [hunfold, List.length_map]
  · intro i r hr
    have hgi : (reconcileRows (s0 :: rest) rows)[i]?
        = some (if r.serviceType ∈ (s0 :: rest).map Service.code then r
                else { r with serviceType := s0.code }) := by
      rw [hunfold, List.getElem?_map, hr, Option.map_some']
    constructor
    · intro hmem
      rw [hgi, if_pos hmem]
    · intro hmem
      rw [hgi, if_neg hmem]

/-- Witness for `rows_reconciliation`: a one-entry catalog and one orphaned
row, which gets redirected to the catalog's first code. -/
theorem rows_reconciliation_witness :
    ([({ id := "srv_x", code := "x", label := "X", suggestion := "",
         defaultHourlyCost := .num 5 } : Service)]
      = ({ id := "srv_x", code := "x", label := "X", suggestion := "",
           defaultHourlyCost := .num 5 } : Service) :: [])
    ∧ (({ id := "r1", serviceType := "gone", detail := "d",
          hours := .num 1, hourlyCost := .num 2 } : RawRow).serviceType
        ∉ [({ id := "srv_x", code := "x", label := "X", suggestion := "",
              defaultHourlyCost := .num 5 } : Service)].map Service.code)
    ∧ (reconcileRows
        [{ id := "srv_x", code := "x", label := "X", suggestion := "",
           defaultHourlyCost := .num 5 }]
        [{ id := "r1", serviceType := "gone", detail := "d",
           hours := .num 1, hourlyCost := .num 2 }])[0]?
        = some { id := "r1", serviceType := "x", detail := "d",
                 hours := .num 1, hourlyCost := .num 2 } :=
  ⟨rfl, by decide,
   ((rows_reconciliation
      [{ id := "srv_x", code := "x", label := "X", suggestion := "",
         defaultHourlyCost := .num 5 }]
      [{ id := "r1", serviceType := "gone", detail := "d",
         hours := .num 1, hourlyCost := .num 2 }]
      { id := "srv_x", code := "x", label := "X", suggestion := "",
        defaultHourlyCost := .num 5 } [] rfl).2 0
      { id := "r1", serviceType := "gone", detail := "d",
        hours := .num 1, hourlyCost := .num 2 } rfl).2 (by decide)⟩

/-- C9: when the target service exists in the catalog, `handleServiceChange`
rewrites exactly the rows whose id matches — setting their `hourlyCost` to
the service's `defaultHourlyCost` (and `serviceType`/`detail` per the
source) — and returns every other row unchanged. -/
theorem handleServiceChange_sets_default_cost (services : List Service)
    (rows : List RawRow) (rowId serviceType : String) (svc : Service)
    (h : getServiceByCode services serviceType = some svc) :
    (handleServiceChange services rows rowId serviceType).length = rows.length
    ∧ ∀ (i : Nat) (r : RawRow), rows[i]? = some r →
        (r.id = rowId →
            (handleServiceChange services rows rowId serviceType)[i]? =
              some { r with
                     serviceType := serviceType,
                     detail := if jsTrim r.detail ≠ "" then r.detail
                               else svc.suggestion,
                     hourlyCost := svc.defaultHourlyCost })
        ∧ (r.id ≠ rowId →
            (handleServiceChange services rows rowId serviceType)[i]? =
              some r) := by
  have hunfold : handleServiceChange services rows rowId serviceType
      = rows.map (fun r =>
          if r.id = rowId then
            { r with serviceType := serviceType,
                     detail := if jsTrim r.detail ≠ "" then r.detail
                               else svc.suggestion,
                     hourlyCost := svc.defaultHourlyCost }
          else r) := by
    simp only [handleServiceChange, h, Option.map_some', Option.getD_some]
  constructor
  · rw [hunfold, List.length_map]
  · intro i r hr
    have hgi : (handleServiceChange services rows rowId serviceType)[i]?
        = some (if r.id = rowId then
            { r with serviceType := serviceType,
                     detail := if jsTrim r.detail ≠ "" then r.detail
                               else svc.suggestion,
                     hourlyCost := svc.defaultHourlyCost }
          else r) := by
      rw [hunfold, List.getElem?_map, hr, Option.map_some']
    constructor
    · intro hid
      rw [hgi, if_pos hid]
    · intro hid
      rw [hgi, if_neg hid]

/-- Witness for `handleServiceChange_sets_default_cost`: a service with
default hourly cost 75; the matching row gets `hourlyCost = 75`, the other
row is untouched. -/
theorem handleServiceChange_sets_default_cost_witness :
    getServiceByCode
        [{ id := "srv_w", code := "web", label := "Web", suggestion := "sug",
           defaultHourlyCost := .num 75 }] "web"
      = some { id := "srv_w", code := "web", label := "Web",
               suggestion := "sug", defaultHourlyCost := .num 75 }
    ∧ (handleServiceChange
        [{ id := "srv_w", code := "web", label := "Web", suggestion := "sug",
           defaultHourlyCost := .num 75 }]
        [{ id := "rA", serviceType := "old", detail := "",
           hours := .num 1, hourlyCost := .num 10 },
         { id := "rB", serviceType := "old", detail := "keep",
           hours := .num 2, hourlyCost := .num 20 }]
        "rA" "web")[0]?
        = some { id := "rA", serviceType := "web", detail := "sug",
                 hours := .num 1, hourlyCost := .num 75 }
    ∧ (handleServiceChange
        [{ id := "srv_w", code := "web", label := "Web", suggestion := "sug",
           defaultHourlyCost := .num 75 }]
        [{ id := "rA", serviceType := "old", detail := "",
           hours := .num 1, hourlyCost := .num 10 },
         { id := "rB", serviceType := "old", detail := "keep",
           hours := .num 2, hourlyCost := .num 20 }]
        "rA" "web")[1]?
        = some { id := "rB", serviceType := "old", detail := "keep",
                 hours := .num 2, hourlyCost := .num 20 } := by
  have hfind : getServiceByCode
      [{ id := "srv_w", code := "web", label := "Web", suggestion := "sug",
         defaultHourlyCost := .num 75 }] "web"
      = some { id := "srv_w", code := "web", label := "Web",
               suggestion := "sug", defaultHourlyCost := .num 75 } := by
    simp [getServiceByCode]
  have main := handleServiceChange_sets_default_cost
    [{ id := "srv_w", code := "web", label := "Web", suggestion := "sug",
       defaultHourlyCost := .num 75 }]
    [{ id := "rA", serviceType := "old", detail := "",
       hours := .num 1, hourlyCost := .num 10 },
     { id := "rB", serviceType := "old", detail := "keep",
       hours := .num 2, hourlyCost := .num 20 }]
    "rA" "web" _ hfind
  refine ⟨hfind, ?_, ?_⟩
  · have h0 := (main.2 0 ⟨"rA", "old", "", .num 1, .num 10⟩ rfl).1 rfl
    simpa [jsTrim] using h0
  · exact (main.2 1 ⟨"rB", "old", "keep", .num 2, .num 20⟩ rfl).2 (by decide)

/-- C5 counterexample: with a two-entry catalog and an id that matches no
entry, `deleteService` leaves the catalog unchanged but reports no
user-facing error (the source's not-found branch is a bare `return`, with no
`alert`), contradicting the claim that a missing id reports an error. -/
theorem deleteService_notFound_is_silent :
    deleteService
        [{ id := "srv_a", code := "a", label := "A", suggestion := "",
           defaultHourlyCost := .num 10 },
         { id := "srv_b", code := "b", label := "B", suggestion := "",
           defaultHourlyCost := .num 20 }] "missing" true
      = ([{ id := "srv_a", code := "a", label := "A", suggestion := "",
            defaultHourlyCost := .num 10 },
          { id := "srv_b", code := "b", label := "B", suggestion := "",
            defaultHourlyCost := .num 20 }], .notFound)
    ∧ DeleteResult.notFound.reportsError = false := by
  constructor
  · rfl
  · rfl

/-- C5 (amended): `deleteService` leaves the catalog unchanged **silently**
(no error report) when no entry matches the id; it reports a user-facing
error and leaves the catalog unchanged when the catalog has a single entry;
otherwise it removes the matching entry, and only once the confirmation step
is accepted. -/
theorem deleteService_spec (services : List Service) (id : String)
    (confirmed : Bool) :
    (services.find? (fun s => s.id = id) = none →
        deleteService services id confirmed = (services, .notFound))
    ∧ (services.find? (fun s => s.id = id) ≠ none → services.length ≤ 1 →
        deleteService services id confirmed = (services, .minCardinalityError))
    ∧ (services.find? (fun s => s.id = id) ≠ none → 1 < services.length →
        confirmed = false →
        deleteService services id confirmed = (services, .cancelled))
    ∧ (services.find? (fun s => s.id = id) ≠ none → 1 < services.length →
        confirmed = true →
        deleteService services id confirmed
          = (services.filter (fun s => s.id ≠ id), .deleted))
    ∧ DeleteResult.notFound.reportsError = false
    ∧ DeleteResult.minCardinalityError.reportsError = true := by
  refine ⟨?_, ?_, ?_, ?_, rfl, rfl⟩
  · intro hfind
    simp [deleteService, hfind]
  · intro hfind hlen
    obtain ⟨s, hs⟩ := Option.ne_none_iff_exists'.mp hfind
    simp [deleteService, hs, hlen]
  · intro hfind hlen hconf
    obtain ⟨s, hs⟩ := Option.ne_none_iff_exists'.mp hfind
    subst hconf
    simp [deleteService, hs, Nat.not_le.mpr hlen]
  · intro hfind hlen hconf
    obtain ⟨s, hs⟩ := Option.ne_none_iff_exists'.mp hfind
    subst hconf
    simp [deleteService, hs, Nat.not_le.mpr hlen]

/-- Witness for `deleteService_spec`: deleting an existing entry of a
two-entry catalog with confirmation accepted removes exactly that entry. -/
theorem deleteService_spec_witness :
    ([{ id := "srv_a", code := "a", label := "A", suggestion := "",
        defaultHourlyCost := .num 10 },
      { id := "srv_b", code := "b", label := "B", suggestion := "",
        defaultHourlyCost := .num 20 }] : List Service).find?
        (fun s => s.id = "srv_a") ≠ none
    ∧ 1 < ([{ id := "srv_a", code := "a", label := "A", suggestion := "",
              defaultHourlyCost := .num 10 },
            { id := "srv_b", code := "b", label := "B", suggestion := "",
              defaultHourlyCost := .num 20 }] : List Service).length
    ∧ deleteService
        [{ id := "srv_a", code := "a", label := "A", suggestion := "",
           defaultHourlyCost := .num 10 },
         { id := "srv_b", code := "b", label := "B", suggestion := "",
           defaultHourlyCost := .num 20 }] "srv_a" true
      = ([{ id := "srv_b", code := "b", label := "B", suggestion := "",
            defaultHourlyCost := .num 20 }], .deleted) := by
  refine ⟨by simp, by simp, ?_⟩
  have h := (deleteService_spec
    [{ id := "srv_a", code := "a", label := "A", suggestion := "",
       defaultHourlyCost := .num 10 },
     { id := "srv_b", code := "b", label := "B", suggestion := "",
       defaultHourlyCost := .num 20 }] "srv_a" true).2.2.2.1
    (by simp) (by simp) rfl
  simpa using h

/-- C6: `addServiceFromAdmin` reports a validation error and mutates nothing
(catalog and scratch state both unchanged) when the trimmed label is empty,
when the resolved code (the given code, or the slugified label) is empty,
or when the resolved code already exists; repeating the call with an
already-existing code any number of times never changes the state.  On
success it appends the new entry (its default hourly cost being
`Number(scratch) || 0`, which keeps ±Infinity) and resets the scratch
state. -/
theorem addService_validation (services : List Service) (ns : NewService)
    (fid : String) :
    let label := jsTrim ns.label
    let code := jsTrim (if ns.code = "" then slugifyCode (jsTrim ns.label)
                        else ns.code)
    (label = "" →
        addServiceFromAdmin services ns fid = (services, ns, .emptyLabel))
    ∧ (label ≠ "" → code = "" →
        addServiceFromAdmin services ns fid = (services, ns, .emptyCode))
    ∧ (label ≠ "" → code ≠ "" →
        services.any (fun s => s.code = code) = true →
        addServiceFromAdmin services ns fid = (services, ns, .duplicateCode))
    ∧ (label ≠ "" → code ≠ "" →
        services.any (fun s => s.code = code) = false →
        addServiceFromAdmin services ns fid
          = (services ++
              [{ id := fid, code := code, label := label,
                 suggestion := ns.suggestion,
                 defaultHourlyCost := toNum0 ns.defaultHourlyCost }],
             emptyNewService, .added))
    ∧ (services.any (fun s => s.code = code) = true →
        ∀ n : Nat,
          (fun st : List Service × NewService =>
              ((addServiceFromAdmin st.1 st.2 fid).1,
               (addServiceFromAdmin st.1 st.2 fid).2.1))^[n] (services, ns)
            = (services, ns))
    ∧ AddResult.emptyLabel.isValidationError = true
    ∧ AddResult.emptyCode.isValidationError = true
    ∧ AddResult.duplicateCode.isValidationError = true
    ∧ AddResult.added.isValidationError = false := by
  intro label code
  have h1 : label = "" →
      addServiceFromAdmin services ns fid = (services, ns, .emptyLabel) := by
    intro h
    simp only [addServiceFromAdmin]
    rw [if_pos h]
  have h2 : label ≠ "" → code = "" →
      addServiceFromAdmin services ns fid = (services, ns, .emptyCode) := by
    intro hl hc
    simp only [addServiceFromAdmin]
    rw [if_neg hl, if_pos hc]
  have h3 : label ≠ "" → code ≠ "" →
      services.any (fun s => s.code = code) = true →
      addServiceFromAdmin services ns fid = (services, ns, .duplicateCode) := by
    intro hl hc hdup
    simp only [addServiceFromAdmin]
    rw [if_neg hl, if_neg hc, if_pos hdup]
  have h4 : label ≠ "" → code ≠ "" →
      services.any (fun s => s.code = code) = false →
      addServiceFromAdmin services ns fid
        = (services ++
            [{ id := fid, code := code, label := label,
               suggestion := ns.suggestion,
               defaultHourlyCost := toNum0 ns.defaultHourlyCost }],
           emptyNewService, .added) := by
    intro hl hc hdup
    simp only [addServiceFromAdmin]
    rw [if_neg hl, if_neg hc, if_neg (by simp [hdup])]
  refine ⟨h1, h2, h3, h4, ?_, rfl, rfl, rfl, rfl⟩
  intro hdup n
  have hfix : (fun st : List Service × NewService =>
      ((addServiceFromAdmin st.1 st.2 fid).1,
       (addServiceFromAdmin st.1 st.2 fid).2.1)) (services, ns)
      = (services, ns) := by
    by_cases hl : label = ""
    · simp [h1 hl]
    · by_cases hc : code = ""
      · simp [h2 hl hc]
      · simp [h3 hl hc hdup]
  exact Function.iterate_fixed hfix n

/-- Witness for `addService_validation`: adding with a code that already
exists in `DEFAULT_SERVICES` is rejected without mutating anything, and
iterating the call keeps the state fixed. -/
theorem addService_validation_witness :
    jsTrim "Otra web" ≠ ""
    ∧ jsTrim (if ("creacion_web" : String) = "" then
          slugifyCode (jsTrim "Otra web") else "creacion_web") ≠ ""
    ∧ DEFAULT_SERVICES.any (fun s =>
        s.code = jsTrim (if ("creacion_web" : String) = "" then
          slugifyCode (jsTrim "Otra web") else "creacion_web")) = true
    ∧ addServiceFromAdmin DEFAULT_SERVICES
        ⟨"Otra web", "creacion_web", "", .num 0⟩ "fresh1"
      = (DEFAULT_SERVICES, ⟨"Otra web", "creacion_web", "", .num 0⟩,
         .duplicateCode)
    ∧ (fun st : List Service × NewService =>
        ((addServiceFromAdmin st.1 st.2 "fresh1").1,
         (addServiceFromAdmin st.1 st.2 "fresh1").2.1))^[3]
        (DEFAULT_SERVICES, ⟨"Otra web", "creacion_web", "", .num 0⟩)
      = (DEFAULT_SERVICES, ⟨"Otra web", "creacion_web", "", .num 0⟩) := by
  have spec := addService_validation DEFAULT_SERVICES
    ⟨"Otra web", "creacion_web", "", .num 0⟩ "fresh1"
  refine ⟨by decide, by decide, by decide, ?_, ?_⟩
  · exact spec.2.2.1 (by decide) (by decide) (by decide)
  · exact spec.2.2.2.2.1 (by decide) 3

/-- C8: loading settings shallow-merges the stored object's fields over the
defaults (the source field name for the spec's `taxRate` is `igvRate`): a
stored object carrying only `igvRate = 0.2` yields `igvRate = 0.2` with every
other field at its default, and a missing key, unparsable content or
non-object shape (`stored = none`) leaves every field at its default. -/
theorem loadSettings_shallow_merge :
    loadSettings DEFAULT_SETTINGS none = DEFAULT_SETTINGS
    ∧ (∀ p : StoredSettings,
        loadSettings DEFAULT_SETTINGS (some p)
          = { exchangeRate := p.exchangeRate.getD DEFAULT_SETTINGS.exchangeRate,
              igvRate := p.igvRate.getD DEFAULT_SETTINGS.igvRate,
              companyName := p.companyName.getD DEFAULT_SETTINGS.companyName,
              companyRuc := p.companyRuc.getD DEFAULT_SETTINGS.companyRuc,
              companyEmail := p.companyEmail.getD DEFAULT_SETTINGS.companyEmail,
              companyPhone := p.companyPhone.getD DEFAULT_SETTINGS.companyPhone })
    ∧ loadSettings DEFAULT_SETTINGS
        (some ⟨none, some (.num (1 / 5)), none, none, none, none⟩)
      = { DEFAULT_SETTINGS with igvRate := .num (1 / 5) } := by
  refine ⟨rfl, fun p => rfl, rfl⟩

/-- C2 counterexample: in the basic variant the PDF table body includes the
hours column.  Two computed item lists that agree on service label, detail
and subtotal (hourly cost 0, hours 7 vs 8) produce different exported bodies,
and the exported row literally carries the item's `hours` value — so the row
projection does contain the `hours` field, contradicting the claim. -/
theorem pdfBodyBasic_contains_hours :
    ((computedBasic [⟨"r1", "creacion_web", "", .num 7, .num 0⟩]
        Currency.PEN).items.map
          (fun it => (getServiceLabel it.serviceType, it.detail, it.subtotal))
      = (computedBasic [⟨"r1", "creacion_web", "", .num 8, .num 0⟩]
        Currency.PEN).items.map
          (fun it => (getServiceLabel it.serviceType, it.detail, it.subtotal)))
    ∧ pdfBodyBasic (computedBasic [⟨"r1", "creacion_web", "", .num 7, .num 0⟩]
        Currency.PEN).items
      ≠ pdfBodyBasic (computedBasic [⟨"r1", "creacion_web", "", .num 8, .num 0⟩]
        Currency.PEN).items
    ∧ pdfBodyBasic (computedBasic [⟨"r1", "creacion_web", "", .num 7, .num 0⟩]
        Currency.PEN).items
      = [("Creación de página web", "", JsVal.num 7, JsVal.num 0)]
    ∧ (computedBasic [⟨"r1", "creacion_web", "", .num 7, .num 0⟩]
        Currency.PEN).items.map Item.hours = [JsVal.num 7] := by
  refine ⟨?_, ?_, ?_, ?_⟩ <;>
    · norm_num [computedBasic, computeItem, toNum0, jsMul, pdfBodyBasic,
        pdfRowBasic, getServiceLabel, SERVICE_CATALOG]
      try decide

/-- C2 (amended): the admin variant's exporter rows consist only of service
label, detail and the derived subtotal — they depend on neither `hours` nor
`hourlyCost`; the basic variant's exporter rows additionally include the
item's `hours` count, but never its `hourlyCost`. -/
theorem pdf_row_projection (services : List Service) (items : List Item)
    (it : Item) (h hc : JsVal) :
    pdfRowAdmin services { it with hours := h, hourlyCost := hc }
      = pdfRowAdmin services it
    ∧ pdfRowBasic { it with hourlyCost := hc } = pdfRowBasic it
    ∧ pdfBodyAdmin services items
      = items.map (fun i =>
          (getLabelAdmin services i.serviceType, i.detail, i.subtotal))
    ∧ pdfBodyBasic items
      = items.map (fun i =>
          (getServiceLabel i.serviceType, i.detail, i.hours, i.subtotal)) := by
  exact ⟨rfl, rfl, rfl, rfl⟩

lemma filter_ne_nil_of_two (a b : Service) (rest : List Service) (id : String)
    (hab : a.id ≠ b.id) :
    (a :: b :: rest).filter (fun s => s.id ≠ id) ≠ [] := by
  by_cases ha : a.id = id
  · have hb : ¬ b.id = id := fun h => hab (ha.trans h.symm)
    have hmem : b ∈ (a :: b :: rest).filter (fun s => s.id ≠ id) :=
      List.mem_filter.mpr ⟨by simp, by simpa using hb⟩
    exact List.ne_nil_of_mem hmem
  · have hmem : a ∈ (a :: b :: rest).filter (fun s => s.id ≠ id) :=
      List.mem_filter.mpr ⟨by simp, by simpa using ha⟩
    exact List.ne_nil_of_mem hmem

/-- C7 counterexample: the services load path validates entries only for a
present `code` and `label` and never deduplicates codes, so a stored list
with two entries sharing code "a" is installed as-is: starting from
`DEFAULT_SERVICES` (whose codes are distinct), the loaded catalog has
duplicate codes — loading from durable storage does not preserve the code
uniqueness invariant. -/
theorem loadServices_breaks_code_uniqueness :
    (DEFAULT_SERVICES.map Service.code).Nodup
    ∧ (loadServices DEFAULT_SERVICES
        (some [⟨"i1", "a", "A", "", .num 0⟩, ⟨"i2", "a", "B", "", .num 0⟩])
        (fun _ => "fresh")).map Service.code = ["a", "a"]
    ∧ ¬ ((loadServices DEFAULT_SERVICES
        (some [⟨"i1", "a", "A", "", .num 0⟩, ⟨"i2", "a", "B", "", .num 0⟩])
        (fun _ => "fresh")).map Service.code).Nodup := by
  refine ⟨by decide, by decide, by decide⟩

/-- C7 (amended): `addServiceFromAdmin` and `deleteService` (the latter
given pairwise-distinct entry ids) preserve both catalog invariants — code
uniqueness and non-emptiness; `updateService` preserves the code list and
the length outright; loading from storage preserves non-emptiness but not
code uniqueness (see the counterexample: a stored list with duplicate codes
is installed verbatim). -/
theorem catalog_operations_invariants :
    (∀ (services : List Service) (ns : NewService) (fid : String),
        (services.map Service.code).Nodup → services ≠ [] →
        (((addServiceFromAdmin services ns fid).1.map Service.code).Nodup
          ∧ (addServiceFromAdmin services ns fid).1 ≠ []))
    ∧ (∀ (services : List Service) (id : String) (p : ServicePatch),
        (updateService services id p).map Service.code
            = services.map Service.code
        ∧ (updateService services id p).length = services.length)
    ∧ (∀ (services : List Service) (id : String) (confirmed : Bool),
        (services.map Service.id).Nodup →
        (services.map Service.code).Nodup → services ≠ [] →
        (((deleteService services id confirmed).1.map Service.code).Nodup
          ∧ (deleteService services id confirmed).1 ≠ []))
    ∧ (∀ (current : List Service) (stored : Option (List StoredService))
        (fresh : Nat → String), current ≠ [] →
        loadServices current stored fresh ≠ []) := by
  refine ⟨?_, ?_, ?_, ?_⟩
  · intro services ns fid hcodes hne
    simp only [addServiceFromAdmin]
    by_cases hl : jsTrim ns.label = ""
    · rw [if_pos hl]
      exact ⟨hcodes, hne⟩
    rw [if_neg hl]
    by_cases hc : jsTrim (if ns.code = "" then slugifyCode (jsTrim ns.label)
        else ns.code) = ""
    · rw [if_pos hc]
      exact ⟨hcodes, hne⟩
    rw [if_neg hc]
    by_cases hdup : services.any (fun s =>
        s.code = jsTrim (if ns.code = "" then slugifyCode (jsTrim ns.label)
          else ns.code)) = true
    · rw [if_pos hdup]
      exact ⟨hcodes, hne⟩
    · rw [if_neg hdup]
      refine ⟨?_, by simp⟩
      rw [List.map_append]
      refine List.Nodup.append hcodes (by simp) ?_
      intro x hx hx1
      simp only [List.map_cons, List.map_nil, List.mem_singleton] at hx1
      obtain ⟨s, hs, hsc⟩ := List.mem_map.mp hx
      rw [List.any_eq_true] at hdup
      exact hdup ⟨s, hs, by simp [hsc, hx1]⟩
  · intro services id p
    constructor
    · simp only [updateService, List.map_map]
      refine List.map_congr_left (fun s _ => ?_)
      by_cases hs : s.id = id <;> simp [hs, applyPatch]
    · simp [updateService]
  · intro services id confirmed hids hcodes hne
    cases hfind : services.find? (fun s => s.id = id) with
    | none =>
      simp only [deleteService, hfind]
      exact ⟨hcodes, hne⟩
    | some s =>
      by_cases hlen : services.length ≤ 1
      · simp only [deleteService, hfind, if_pos hlen]
        exact ⟨hcodes, hne⟩
      · by_cases hconf : confirmed
        · have hres : deleteService services id confirmed
              = (services.filter (fun s => s.id ≠ id), .deleted) := by
            simp [deleteService, hfind, hlen, hconf]
          rw [hres]
          constructor
          · exact hcodes.sublist
              ((List.filter_sublist services).map Service.code)
          · have h2 : 2 ≤ services.length := by omega
            rcases services with _ | ⟨a, _ | ⟨b, rest⟩⟩
            · simp at hne
            · simp at h2
            · have hab : a.id ≠ b.id := by
                intro h
                have hnd : (List.map Service.id (a :: b :: rest)).Nodup := hids
                rw [List.map_cons, List.nodup_cons] at hnd
                exact hnd.1 (by rw [h, List.map_cons]; exact List.mem_cons_self _ _)
              exact filter_ne_nil_of_two a b rest id hab
        · simp only [deleteService, hfind, if_neg hlen,
            if_pos (by simpa using hconf : ¬ confirmed = true)]
          exact ⟨hcodes, hne⟩
  · intro current stored fresh hne
    cases stored with
    | none => simpa [loadServices] using hne
    | some l =>
      simp only [loadServices]
      split
      next h => exact List.length_pos.mp h
      next => exact hne

/-- Witness for `catalog_operations_invariants`: deleting one entry of the
(id-distinct, code-distinct) default catalog keeps the catalog non-empty
with distinct codes. -/
theorem catalog_operations_invariants_witness :
    ((DEFAULT_SERVICES.map Service.id).Nodup
      ∧ (DEFAULT_SERVICES.map Service.code).Nodup
      ∧ DEFAULT_SERVICES ≠ [])
    ∧ (((deleteService DEFAULT_SERVICES "srv_creacion_web" true).1.map
          Service.code).Nodup
      ∧ (deleteService DEFAULT_SERVICES "srv_creacion_web" true).1 ≠ []) :=
  ⟨⟨by decide, by decide, by decide⟩,
   catalog_operations_invariants.2.2.1 DEFAULT_SERVICES "srv_creacion_web"
     true (by decide) (by decide) (by decide)⟩

end Cotizacion
